import Mathlib

/-!
Verification of the PDF invoice extractor (`src/main.py`,
`src/utils/field_extractor.py`, `src/utils/pdf_reader.py`,
`src/llm_extractor.py`) against its natural-language specification.

The Python code is shallowly embedded:
* Python values that flow through the record dictionaries are modelled by
  `PyVal` (None, str, float).  Python floats in this program only ever hold
  exact decimal amounts and percentages, so they are modelled as exact
  fractions (`PyFloat`, an integer numerator over a positive natural
  denominator); Python `==`/`<` on them is value comparison
  (`pyEq` / `pfLt`).
* Each `re` pattern of the source is embedded as a backtracking matcher over
  `List Char` (`Matcher` returns the list of possible suffixes left after a
  match, in the priority order the Python regex engine explores them:
  greedy quantifiers longest first, alternatives left to right, leftmost
  starting position first).  Character classes are ASCII, matching the ASCII
  texts the program processes.
-/

/-- A Python float, modelled as the exact fraction `num / den` (`den`
positive by construction everywhere it is built).  Equality of Python floats
is value equality, `pyEq`/`PyFloat.valEq` below, not structural equality. -/
structure PyFloat where
  num : ℤ
  den : ℕ
deriving DecidableEq

/-- Python `==` on two floats: cross-multiplied value equality. -/
def PyFloat.valEq (a b : PyFloat) : Bool :=
  a.num * (b.den : ℤ) == b.num * (a.den : ℤ)

/-- Python `<` on two floats (denominators are positive). -/
def pfLt (a b : PyFloat) : Bool :=
  a.num * (b.den : ℤ) < b.num * (a.den : ℤ)

/-- Python `<=` on two floats. -/
def pfLe (a b : PyFloat) : Bool :=
  a.num * (b.den : ℤ) ≤ b.num * (a.den : ℤ)

/-- A Python value stored in one of the program's record dictionaries:
`None`, a string, or a float. -/
inductive PyVal where
  | pynone
  | pystr (s : String)
  | pynum (x : PyFloat)
deriving DecidableEq

/-- Python `==` between record values: `None == None` is `True`, strings
compare by content, floats by value, values of different types are unequal. -/
def pyEq : PyVal → PyVal → Bool
  | .pynone, .pynone => true
  | .pystr a, .pystr b => a == b
  | .pynum a, .pynum b => a.valEq b
  | _, _ => false

/-! ## Character classes (ASCII embeddings of the classes in the patterns) -/

/-- Python `\s` (ASCII range): space, tab, newline, carriage return,
vertical tab, form feed. -/
def pyIsSpace (c : Char) : Bool :=
  c == ' ' || c == '\t' || c == '\n' || c == '\r' || c == '\x0b' || c == '\x0c'

/-- Python `\w` (ASCII range): letters, digits, underscore. -/
def isWordChar (c : Char) : Bool :=
  c.isAlphanum || c == '_'

/-- The class `[A-Za-z0-9\-\/]` of the invoice-number capture groups. -/
def invTokChar (c : Char) : Bool :=
  c.isAlphanum || c == '-' || c == '/'

/-- The class `[:\-]` of the optional separator after each label. -/
def colonDash (c : Char) : Bool :=
  c == ':' || c == '-'

/-- The class `[\d,]` of the amount pattern. -/
def digitComma (c : Char) : Bool :=
  c.isDigit || c == ','

/-- The class `[A-Za-z0-9\s,&\.-]` of the vendor-name pattern. -/
def vendorChar (c : Char) : Bool :=
  c.isAlphanum || pyIsSpace c || c == ',' || c == '&' || c == '.' || c == '-'

/-- Python `str.strip()` on a character list. -/
def stripCh (cs : List Char) : List Char :=
  ((cs.dropWhile pyIsSpace).reverse.dropWhile pyIsSpace).reverse

/-- Python `str.strip()`. -/
def pyStrip (s : String) : String :=
  String.mk (stripCh s.data)

/-- Python `str.splitlines()` on a character list, splitting at newline
characters (the only line separator occurring in the modelled texts). -/
def splitLinesCh : List Char → List (List Char)
  | [] => [[]]
  | c :: rest =>
    if c == '\n' then [] :: splitLinesCh rest
    else
      match splitLinesCh rest with
      | l :: ls => (c :: l) :: ls
      | [] => [[c]]

/-- The lines of a text, as strings. -/
def pyLines (t : String) : List String :=
  (splitLinesCh t.data).map String.mk

/-- Membership of a character in a string (Python `c in text`). -/
def strHasChar (t : String) (c : Char) : Bool :=
  t.data.contains c

/-! ## Backtracking matcher combinators

A `Matcher` consumes a prefix of the input and returns every suffix it can
leave, in the priority order a backtracking regex engine would try them. -/

/-- A regex fragment: the list of suffixes reachable by matching a prefix,
best (engine-preferred) first. -/
def Matcher : Type := List Char → List (List Char)

/-- The empty pattern. -/
def meps : Matcher := fun s => [s]

/-- A single character satisfying a class. -/
def mchar (f : Char → Bool) : Matcher := fun s =>
  match s with
  | [] => []
  | c :: rest => if f c then [rest] else []

/-- Sequencing: all ways through `p` then `q`, in priority order. -/
def mseq (p q : Matcher) : Matcher := fun s => (p s).flatMap q

/-- Ordered alternation of a list of fragments (regex `|`). -/
def maltL (ps : List Matcher) : Matcher := fun s => ps.flatMap (fun p => p s)

/-- Greedy option (regex `?`): try consuming first, then the empty match. -/
def mopt (p : Matcher) : Matcher := fun s => p s ++ [s]

/-- Greedy star over a character class (regex `cls*`): suffixes after
consuming a maximal run first, down to consuming nothing. -/
def mstarGo (f : Char → Bool) : List Char → List (List Char)
  | [] => [[]]
  | c :: rest => if f c then mstarGo f rest ++ [c :: rest] else [c :: rest]

/-- Greedy star over a character class. -/
def mstarCls (f : Char → Bool) : Matcher := fun s => mstarGo f s

/-- Greedy plus over a character class (regex `cls+`). -/
def mplusCls (f : Char → Bool) : Matcher :=
  mseq (mchar f) (mstarCls f)

/-- Up to `n` characters of a class, longest first. -/
def muptoGo (f : Char → Bool) : Nat → List Char → List (List Char)
  | 0, s => [s]
  | _ + 1, [] => [[]]
  | n + 1, c :: rest =>
    if f c then muptoGo f n rest ++ [c :: rest] else [c :: rest]

/-- Exactly `n` characters of a class. -/
def mexact (f : Char → Bool) : Nat → Matcher
  | 0 => meps
  | n + 1 => mseq (mchar f) (mexact f n)

/-- Bounded repetition of a class (regex `cls{lo,hi}`), greedy. -/
def mrep (f : Char → Bool) (lo hi : Nat) : Matcher :=
  mseq (mexact f lo) (fun s => muptoGo f (hi - lo) s)

/-- A literal word, case-insensitively (the patterns carry `re.IGNORECASE`). -/
def mlitGo : List Char → List Char → Option (List Char)
  | [], s => some s
  | _, [] => none
  | c :: w, d :: s => if c.toLower == d.toLower then mlitGo w s else none

/-- Case-insensitive literal. -/
def mlitCI (w : String) : Matcher := fun s => (mlitGo w.data s).toList

/-- Whitespace star, regex `\s*`. -/
def mws : Matcher := mstarCls pyIsSpace

/-- Sequencing of a list of fragments. -/
def mseqL (ps : List Matcher) : Matcher := ps.foldr mseq meps

/-! ## Search (Python `re.search`) with one capture group at the end -/

/-- Word-boundary test (`\b`) between an optional previous character and the
rest of the input. -/
def boundaryOk (prev : Option Char) (s : List Char) : Bool :=
  let pw := match prev with | some c => isWordChar c | none => false
  let nw := match s with | c :: _ => isWordChar c | [] => false
  pw != nw

/-- Try the pattern `pre (cap) post` at this position; on success return the
characters the capture group consumed and the remaining suffix.  Alternatives
are explored in engine priority order. -/
def firstMatchR (pre cap : Matcher) (post : List Char → Bool) (s : List Char) :
    Option (List Char × List Char) :=
  (pre s).findSome? fun r1 =>
    (cap r1).findSome? fun r2 =>
      if post r2 then some (r1.take (r1.length - r2.length), r2) else none

/-- Like `firstMatchR` but returning only the capture. -/
def firstMatch (pre cap : Matcher) (post : List Char → Bool) (s : List Char) :
    Option (List Char) :=
  (firstMatchR pre cap post s).map Prod.fst

/-- Attempt a match at the current position, honouring a leading `\b` when
the pattern has one. -/
def tryHere (needB : Bool) (prev : Option Char) (pre cap : Matcher)
    (post : List Char → Bool) (s : List Char) : Option (List Char) :=
  if needB && !boundaryOk prev s then none else firstMatch pre cap post s

/-- `re.search`: scan positions left to right, keeping the previous character
for boundary tests, and return the first capture found. -/
def searchFrom (needB : Bool) (pre cap : Matcher) (post : List Char → Bool) :
    Option Char → List Char → Option (List Char)
  | prev, [] => tryHere needB prev pre cap post []
  | prev, c :: rest =>
    match tryHere needB prev pre cap post (c :: rest) with
    | some g => some g
    | none => searchFrom needB pre cap post (some c) rest

/-- `re.search` over a string, returning `m.group(1)` of the first match. -/
def reSearch (needB : Bool) (pre cap : Matcher) (post : List Char → Bool)
    (text : String) : Option String :=
  (searchFrom needB pre cap post none text.data).map String.mk

/-! ## The patterns of `src/utils/field_extractor.py` (regex mode)

Each `searchX` below embeds one `re.search` call of `extract_fields`,
split as uncaptured label part (`pre`), capture group (`cap`), and trailing
boundary test (`post`). -/

/-- Trailing pattern check when nothing follows the capture group. -/
def postTrue : List Char → Bool := fun _ => true

/-- Trailing `\b` after a capture group that ends in a word character:
the next character must not be a word character (or the input ends). -/
def postNonWord : List Char → Bool
  | [] => true
  | c :: _ => !isWordChar c

/-- The capture `([A-Za-z0-9\-\/]+)` shared by the invoice-number patterns. -/
def invCapture : Matcher := mplusCls invTokChar

/-- Label of `r"Invoice\s*#\s*[:\-]?\s*([A-Za-z0-9\-\/]+)"` (IGNORECASE). -/
def inv1Pre : Matcher :=
  mseqL [mlitCI "invoice", mws, mlitCI "#", mws, mopt (mchar colonDash), mws]

/-- First invoice-number search (`field_extractor.py` line 60). -/
def searchInv1 (text : String) : Option String :=
  reSearch false inv1Pre invCapture postTrue text

/-- Label of `r"Invoice\s*No[:\-]?\s*([A-Za-z0-9\-\/]+)"` (IGNORECASE). -/
def inv2Pre : Matcher :=
  mseqL [mlitCI "invoice", mws, mlitCI "no", mopt (mchar colonDash), mws]

/-- Second invoice-number search (`field_extractor.py` line 64). -/
def searchInv2 (text : String) : Option String :=
  reSearch false inv2Pre invCapture postTrue text

/-- Label of `r"(?:Inv|Bill)\s*(?:No|#)[:\-]?\s*([A-Za-z0-9\-\/]+)"`. -/
def inv3Pre : Matcher :=
  mseqL [maltL [mlitCI "inv", mlitCI "bill"], mws,
    maltL [mlitCI "no", mlitCI "#"], mopt (mchar colonDash), mws]

/-- Third invoice-number search (`field_extractor.py` line 68). -/
def searchInv3 (text : String) : Option String :=
  reSearch false inv3Pre invCapture postTrue text

/-- The invoice-number cascade of `extract_fields`: each tier is taken when
its regex matched and the candidate contains no `@`; otherwise fall through
(`field_extractor.py` lines 60-72). -/
def pickInv3 (text : String) : Option String :=
  match searchInv3 text with
  | some t => if strHasChar t '@' then none else some (pyStrip t)
  | none => none

/-- Second and third tiers of the invoice-number cascade. -/
def pickInv2 (text : String) : Option String :=
  match searchInv2 text with
  | some t => if strHasChar t '@' then pickInv3 text else some (pyStrip t)
  | none => pickInv3 text

/-- The full invoice-number cascade. -/
def pickInvoiceNumber (text : String) : Option String :=
  match searchInv1 text with
  | some t => if strHasChar t '@' then pickInv2 text else some (pyStrip t)
  | none => pickInv2 text

/-- Date alternative `[0-9]{1,2}[\/\-][0-9]{1,2}[\/\-][0-9]{2,4}`. -/
def dateAlt1 : Matcher :=
  mseqL [mrep Char.isDigit 1 2, mchar (fun c => c == '/' || c == '-'),
    mrep Char.isDigit 1 2, mchar (fun c => c == '/' || c == '-'),
    mrep Char.isDigit 2 4]

/-- Date alternative `[0-9]{4}[\/\-][0-9]{1,2}[\/\-][0-9]{1,2}`. -/
def dateAlt2 : Matcher :=
  mseqL [mexact Char.isDigit 4, mchar (fun c => c == '/' || c == '-'),
    mrep Char.isDigit 1 2, mchar (fun c => c == '/' || c == '-'),
    mrep Char.isDigit 1 2]

/-- Date alternative `[0-9]{1,2}\s*\w+\s*[0-9]{2,4}`. -/
def dateAlt3 : Matcher :=
  mseqL [mrep Char.isDigit 1 2, mws, mplusCls isWordChar, mws,
    mrep Char.isDigit 2 4]

/-- Date alternative `\w+\s*[0-9]{1,2},\s*[0-9]{4}`. -/
def dateAlt4 : Matcher :=
  mseqL [mplusCls isWordChar, mws, mrep Char.isDigit 1 2,
    mchar (fun c => c == ','), mws, mexact Char.isDigit 4]

/-- The captured date alternation shared by both date searches. -/
def dateCapture : Matcher := maltL [dateAlt1, dateAlt2, dateAlt3, dateAlt4]

/-- Label `(?:Dated|Date|Invoice\s*Date)[:\-]?\s*` (IGNORECASE). -/
def dateLPre : Matcher :=
  mseqL [maltL [mlitCI "dated", mlitCI "date",
      mseqL [mlitCI "invoice", mws, mlitCI "date"]],
    mopt (mchar colonDash), mws]

/-- Labelled date search (`field_extractor.py` line 77). -/
def searchDateL (text : String) : Option String :=
  reSearch false dateLPre dateCapture postTrue text

/-- Bare date search (`field_extractor.py` line 89). -/
def searchDateBare (text : String) : Option String :=
  reSearch false meps dateCapture postTrue text

/-- The invoice-date cascade: labelled date first, then a bare date. -/
def pickDate (text : String) : Option String :=
  match searchDateL text with
  | some d => some (pyStrip d)
  | none => (searchDateBare text).map pyStrip

/-- The legal-entity suffix alternation
`(?:Ltd|Limited|Pvt|LLP|Inc|Corporation|Company|Processing)` (IGNORECASE). -/
def vendorSuffixAlt : Matcher :=
  maltL [mlitCI "ltd", mlitCI "limited", mlitCI "pvt", mlitCI "llp",
    mlitCI "inc", mlitCI "corporation", mlitCI "company", mlitCI "processing"]

/-- The vendor capture `([A-Za-z0-9\s,&\.-]+(?:Ltd|...))`. -/
def vendorCapture : Matcher := mseq (mplusCls vendorChar) vendorSuffixAlt

/-- One vendor-name line search:
`r"\b([A-Za-z0-9\s,&\.-]+(?:Ltd|Limited|Pvt|LLP|Inc|Corporation|Company|Processing))\b"`
(IGNORECASE), applied to a stripped line (`field_extractor.py` line 106). -/
def vendorSearchLine (line : String) : Option String :=
  reSearch true meps vendorCapture postNonWord line

/-- The vendor-name loop of `extract_fields`: first line whose stripped
content matches the legal-suffix pattern supplies the stripped capture
(`field_extractor.py` lines 104-117). -/
def pickVendor (text : String) : Option String :=
  (pyLines text).findSome? (fun l => (vendorSearchLine (pyStrip l)).map pyStrip)

/-- The amount capture `([\d,]+\.\d{2})`. -/
def amountCapture : Matcher :=
  mseqL [mplusCls digitComma, mlitCI ".", mexact Char.isDigit 2]

/-- Label `(?:Total\s*Amount|Amount\s*Due|Invoice\s*Total|Balance\s*Due)[:\-]?\s*`
(IGNORECASE). -/
def totalLPre : Matcher :=
  mseqL [maltL [mseqL [mlitCI "total", mws, mlitCI "amount"],
      mseqL [mlitCI "amount", mws, mlitCI "due"],
      mseqL [mlitCI "invoice", mws, mlitCI "total"],
      mseqL [mlitCI "balance", mws, mlitCI "due"]],
    mopt (mchar colonDash), mws]

/-- Labelled total search (`field_extractor.py` line 122). -/
def searchTotalL (text : String) : Option String :=
  reSearch false totalLPre amountCapture postTrue text

/-- Decimal digits to a natural number. -/
def digitsToNat (cs : List Char) : ℕ :=
  cs.foldl (fun a c => a * 10 + (c.toNat - 48)) 0

/-- Python `float(x.replace(",", ""))` on a match of `[\d,]+\.\d{2}`:
commas dropped, integer part and the two fraction digits read exactly. -/
def parseAmount (s : String) : PyFloat :=
  let cs := s.data.filter (fun c => c != ',')
  let ip := cs.takeWhile (fun c => c != '.')
  let fp := (cs.dropWhile (fun c => c != '.')).drop 1
  ⟨(digitsToNat ip * 100 + digitsToNat fp : ℕ), 100⟩

/-- One step of `re.findall(r"[\d,]+\.\d{2}", text)`: scan left to right,
taking non-overlapping matches and resuming after each. -/
def findAllGo : Nat → List Char → List String
  | 0, _ => []
  | fuel + 1, s =>
    match firstMatchR meps amountCapture postTrue s with
    | some (cs, rest) => String.mk cs :: findAllGo fuel rest
    | none =>
      match s with
      | [] => []
      | _ :: rest => findAllGo fuel rest

/-- `re.findall(r"[\d,]+\.\d{2}", text)` (`field_extractor.py` line 130). -/
def findAllAmounts (text : String) : List String :=
  findAllGo (text.data.length + 1) text.data

/-- Python `max` over a nonempty float list (first maximal element kept). -/
def numsMax : List PyFloat → Option PyFloat
  | [] => none
  | x :: xs => some (xs.foldl (fun a b => if pfLt a b then b else a) x)

/-- The total-amount logic of `extract_fields`: labelled total if the label
pattern matches, otherwise the maximum of every two-decimal token in the
text, otherwise `None` (`field_extractor.py` lines 122-134). -/
def pickTotal (text : String) : Option PyFloat :=
  match searchTotalL text with
  | some g => some (parseAmount g)
  | none => numsMax ((findAllAmounts text).map parseAmount)

/-- The currency alternation `\b(GBP|USD|INR|EUR|CAD|AUD)\b` (IGNORECASE). -/
def currencyCapture : Matcher :=
  maltL [mlitCI "gbp", mlitCI "usd", mlitCI "inr",
    mlitCI "eur", mlitCI "cad", mlitCI "aud"]

/-- Currency word search (`field_extractor.py` line 139). -/
def searchCurrency (text : String) : Option String :=
  reSearch true meps currencyCapture postNonWord text

/-- ASCII `str.upper()`. -/
def asciiUpper (s : String) : String :=
  String.mk (s.data.map Char.toUpper)

/-- The currency logic: uppercased currency word, else the symbol fallbacks
`£`/`$`/`₹` (`field_extractor.py` lines 139-150). -/
def pickCurrency (text : String) : Option String :=
  match searchCurrency text with
  | some g => some (asciiUpper g)
  | none =>
    if strHasChar text '£' then some "GBP"
    else if strHasChar text '$' then some "USD"
    else if strHasChar text '₹' then some "INR"
    else none

/-! ## The field record and `extract_fields` (`src/utils/field_extractor.py`) -/

/-- The record dictionary built by `extract_fields`: the seven keys of the
result template, in insertion order. -/
structure PyRecord where
  doc_type : PyVal
  invoice_number : PyVal
  invoice_date : PyVal
  vendor_name : PyVal
  total_amount : PyVal
  currency : PyVal
  source_file : PyVal
deriving DecidableEq

/-- The record keys, in the dictionary's insertion order. -/
def recordKeys : List String :=
  ["doc_type", "invoice_number", "invoice_date", "vendor_name",
   "total_amount", "currency", "source_file"]

/-- Python `record.get(k)` (missing key gives `None`). -/
def PyRecord.get (r : PyRecord) (k : String) : PyVal :=
  if k == "doc_type" then r.doc_type
  else if k == "invoice_number" then r.invoice_number
  else if k == "invoice_date" then r.invoice_date
  else if k == "vendor_name" then r.vendor_name
  else if k == "total_amount" then r.total_amount
  else if k == "currency" then r.currency
  else if k == "source_file" then r.source_file
  else .pynone

/-- An optional string as a record value. -/
def optStr : Option String → PyVal
  | some s => .pystr s
  | none => .pynone

/-- An optional float as a record value. -/
def optNum : Option PyFloat → PyVal
  | some x => .pynum x
  | none => .pynone

/-- The initial `result` template of `extract_fields`: everything `None`
except `doc_type` and `source_file` (`field_extractor.py` lines 46-54). -/
def nullRecord (src : PyVal) : PyRecord :=
  { doc_type := .pystr "invoice"
    invoice_number := .pynone
    invoice_date := .pynone
    vendor_name := .pynone
    total_amount := .pynone
    currency := .pynone
    source_file := src }

/-- `extract_fields(text, source_file, mode="regex")`: the regex cascade
(`field_extractor.py` lines 56-152).  Total by construction — every
unmatched field stays at the template's `None`. -/
def extractFieldsRegex (text : String) (src : PyVal) : PyRecord :=
  { doc_type := .pystr "invoice"
    invoice_number := optStr (pickInvoiceNumber text)
    invoice_date := optStr (pickDate text)
    vendor_name := optStr (pickVendor text)
    total_amount := optNum (pickTotal text)
    currency := optStr (pickCurrency text)
    source_file := src }

/-! ## The llm branch of `extract_fields` and `src/llm_extractor.py` -/

/-- The module-level names defined in `src/llm_extractor.py`: its imports
and its two function definitions. -/
def llmExtractorModuleNames : List String :=
  ["re", "logging", "openai", "json", "os", "extract_fields", "extract_with_llm"]

/-- `from llm_extractor import llm_extract_invoice`
(`field_extractor.py` line 156): succeeds only if that name exists in the
module, which it does not. -/
def importLlmExtractInvoice : Except String Unit :=
  if "llm_extract_invoice" ∈ llmExtractorModuleNames then Except.ok ()
  else Except.error "ImportError: cannot import name llm_extract_invoice"

/-- The body of the `try` block of the `llm` branch: import, then call.
Since the imported name does not exist the call site is unreachable; if it
were reached it would raise `NameError`. -/
def extractFieldsLLMTry : Except String PyRecord :=
  match importLlmExtractInvoice with
  | Except.error e => Except.error e
  | Except.ok _ => Except.error "NameError: llm_extract_invoice is not defined"

/-- `extract_fields(text, source_file, mode)` with its three branches:
regex cascade, llm branch (whose failures are caught and yield the untouched
null template), and `ValueError` for any other mode
(`field_extractor.py` lines 56-163). -/
def extractFields (text : String) (src : PyVal) (mode : String) :
    Except String PyRecord :=
  if mode == "regex" then Except.ok (extractFieldsRegex text src)
  else if mode == "llm" then
    match extractFieldsLLMTry with
    | Except.ok r => Except.ok r
    | Except.error _ => Except.ok (nullRecord src)
  else Except.error ("Unsupported extraction mode: " ++ mode)

/-- The prompt built by `extract_with_llm` (`llm_extractor.py` lines 69-79). -/
def promptOf (text : String) : String :=
  "Extract the following fields from this invoice text and return JSON only: "
    ++ "Invoice Number, Invoice Date, Vendor Name, Total Amount, Currency. "
    ++ "Invoice Text: " ++ text

/-- The external world `extract_with_llm` interacts with: the completion
service (prompt to response content, or any service/response-shape error)
and the JSON parser (content to an `extracted.get` lookup, or a parse
error). -/
structure LLMWorld where
  response : String → Except String String
  parse : String → Except String (String → PyVal)

/-- The `try` block of `extract_with_llm` (`llm_extractor.py` lines 81-99):
call the service on the prompt, parse the content, build the record from
`extracted.get(...)` lookups. -/
def extractWithLLMTry (w : LLMWorld) (text : String) (src : PyVal) :
    Except String PyRecord :=
  match w.response (promptOf text) with
  | Except.error e => Except.error e
  | Except.ok content =>
    match w.parse content with
    | Except.error e => Except.error e
    | Except.ok extracted =>
      Except.ok
        { doc_type := .pystr "invoice"
          invoice_number := extracted "Invoice Number"
          invoice_date := extracted "Invoice Date"
          vendor_name := extracted "Vendor Name"
          total_amount := extracted "Total Amount"
          currency := extracted "Currency"
          source_file := src }

/-- `extract_with_llm(text, source_file)`: any exception in the `try` block
is caught and the all-null record returned (`llm_extractor.py` lines
100-110).  The return type shows no failure propagates to the caller. -/
def extractWithLLM (w : LLMWorld) (text : String) (src : PyVal) : PyRecord :=
  match extractWithLLMTry w text src with
  | Except.ok r => r
  | Except.error _ => nullRecord src

/-! ## Page text extraction

`main.py` imports `extract_text_from_pdf` from `utils.field_extractor`
(no `try` around the OCR fallback); `utils/pdf_reader.py` holds a second,
unimported variant that catches OCR failures per page. -/

/-- A PDF page: its selectable text (`page.get_text()`) and the outcome of
the render-and-OCR path, which either yields text or raises. -/
structure Page where
  text : String
  ocr : Except String String

/-- The page loop of `field_extractor.extract_text_from_pdf` (lines 24-37):
selectable text appended when nonblank, else the OCR result appended — and,
with no `try` around it, an OCR exception propagates immediately. -/
def feExtractGo : String → List Page → Except String String
  | acc, [] => Except.ok acc
  | acc, p :: rest =>
    if pyStrip p.text != "" then feExtractGo (acc ++ p.text ++ "\n") rest
    else
      match p.ocr with
      | Except.ok t => feExtractGo (acc ++ t ++ "\n") rest
      | Except.error e => Except.error e

/-- `field_extractor.extract_text_from_pdf`, the variant `main.py` imports. -/
def feExtractText (pages : List Page) : Except String String :=
  feExtractGo "" pages

/-- The page loop of `pdf_reader.extract_text_from_pdf` (lines 32-42): a
page's selectable text when truthy and nonblank, else its OCR text, an OCR
exception being caught so the page appends nothing. -/
def prPageTexts : List Page → List String
  | [] => []
  | p :: rest =>
    if p.text != "" && pyStrip p.text != "" then p.text :: prPageTexts rest
    else
      match p.ocr with
      | Except.ok t => t :: prPageTexts rest
      | Except.error _ => prPageTexts rest

/-- `pdf_reader.extract_text_from_pdf`: `"\n".join(texts)`. -/
def prExtractText (pages : List Page) : String :=
  String.intercalate "\n" (prPageTexts pages)

/-! ## The per-document comparison and accuracy of `src/main.py` -/

/-- A ground-truth record: one JSON object of `ground_truth.json`, a
dictionary from field names to values. -/
abbrev GTRecord : Type := List (String × PyVal)

/-- Python `gt.get(k)` on a ground-truth dictionary. -/
def gtLookup (gt : GTRecord) (k : String) : PyVal :=
  match gt.find? (fun kv => kv.1 == k) with
  | some kv => kv.2
  | none => .pynone

/-- Banker's rounding of the exact fraction `n / d` (`d` positive) to an
integer, as Python `round` does on exact halves. -/
def bankersRound (n : ℤ) (d : ℕ) : ℤ :=
  let f := Int.ediv n (d : ℤ)
  let r := Int.emod n (d : ℤ)
  if 2 * r < (d : ℤ) then f
  else if (d : ℤ) < 2 * r then f + 1
  else if Int.emod f 2 = 0 then f else f + 1

/-- Python `round(x, 2)` on the exact value of a float (binary-float
representation artifacts are outside the model). -/
def pyRound2 (x : PyFloat) : PyFloat :=
  ⟨bankersRound (x.num * 100) x.den, 100⟩

/-- The `differences` mapping of `process_invoices` (`main.py` lines
101-105): the keys of the regex record at which the two records' values are
not equal (the stored value being the pair of them). -/
def differencesOf (rx rl : PyRecord) : List String :=
  recordKeys.filter (fun k => !(pyEq (rx.get k) (rl.get k)))

/-- `sum(1 for k in gt if k != "source_file" and fields.get(k) == gt.get(k))`
(`main.py` lines 112-117). -/
def correctCount (gt : GTRecord) (r : PyRecord) : ℕ :=
  (gt.filter (fun kv => kv.1 != "source_file" && pyEq (r.get kv.1) (gtLookup gt kv.1))).length

/-- Per-document accuracy of one strategy (`main.py` lines 108-119): zero
when no ground-truth record exists, else
`round((correct / (len(gt) - 1)) * 100, 2)`.  (Every ground-truth record
carries at least its `source_file` key — it is loaded keyed by that field —
so `len(gt) - 1` is the natural-number subtraction used here.) -/
def accuracyFor (gt : Option GTRecord) (r : PyRecord) : PyFloat :=
  match gt with
  | none => ⟨0, 1⟩
  | some g => pyRound2 ⟨(correctCount g r : ℤ) * 100, g.length - 1⟩

/-- Exact float addition (Python `+` on the modelled exact values). -/
def pfAdd (a b : PyFloat) : PyFloat :=
  ⟨a.num * (b.den : ℤ) + b.num * (a.den : ℤ), a.den * b.den⟩

/-- `sum(...)` over a float list. -/
def pfSum (l : List PyFloat) : PyFloat :=
  l.foldl pfAdd ⟨0, 1⟩

/-- `round(sum(accs) / len(accs), 2)` (`main.py` lines 153-154). -/
def summaryAvg (accs : List PyFloat) : PyFloat :=
  pyRound2 ⟨(pfSum accs).num, (pfSum accs).den * accs.length⟩

/-- One processed document as the summary sees it: its ground-truth record
if one existed, and the extracted record of the strategy. -/
abbrev RunDoc : Type := Option GTRecord × PyRecord

/-- The per-document accuracies of a run, in order. -/
def runAccuracies (docs : List RunDoc) : List PyFloat :=
  docs.map (fun p => accuracyFor p.1 p.2)

/-- The run-level summary statistic the code computes (`main.py` line 153):
mean of the per-document accuracies over all processed documents. -/
def summaryAvgCode (docs : List RunDoc) : PyFloat :=
  summaryAvg (runAccuracies docs)

/-- The statistic the specification describes: mean of per-document accuracy
across the documents that had ground truth only.  Stated from the spec's
words, for comparison with `summaryAvgCode`. -/
def summaryAvgSpecClaim (docs : List RunDoc) : PyFloat :=
  summaryAvg (runAccuracies (docs.filter (fun p => p.1.isSome)))

/-! ## Helper lemmas -/

theorem pyEq_refl (v : PyVal) : pyEq v v = true := by
  cases v with
  | pynone => rfl
  | pystr s => simp [pyEq]
  | pynum x => simp [pyEq, PyFloat.valEq]

theorem findSome_mem {α β : Type} {l : List α} {f : α → Option β} {b : β}
    (h : l.findSome? f = some b) : ∃ a, a ∈ l ∧ f a = some b := by
  induction l with
  | nil => simp [List.findSome?] at h
  | cons x xs ih =>
    cases hx : f x with
    | some y =>
      refine ⟨x, List.mem_cons_self x xs, ?_⟩
      rw [hx]
      rw [List.findSome?, hx] at h
      exact h
    | none =>
      rw [List.findSome?, hx] at h
      obtain ⟨a, ha, hfa⟩ := ih h
      exact ⟨a, List.mem_cons_of_mem x ha, hfa⟩

theorem mstarGo_split {f : Char → Bool} {s r : List Char}
    (h : r ∈ mstarGo f s) : ∃ cs, s = cs ++ r ∧ ∀ c ∈ cs, f c = true := by
  induction s with
  | nil =>
    simp [mstarGo] at h
    exact ⟨[], by simp [h], by simp⟩
  | cons a rest ih =>
    by_cases hf : f a = true
    · rw [mstarGo, if_pos hf] at h
      rcases List.mem_append.mp h with h1 | h2
      · obtain ⟨cs, hcs, hall⟩ := ih h1
        refine ⟨a :: cs, by simp [hcs], ?_⟩
        intro c hc
        rcases List.mem_cons.mp hc with rfl | hc2
        · exact hf
        · exact hall c hc2
      · simp at h2
        exact ⟨[], by simp [h2], by simp⟩
    · rw [mstarGo, if_neg hf] at h
      simp at h
      exact ⟨[], by simp [h], by simp⟩

theorem mplusCls_split {f : Char → Bool} {r1 r2 : List Char}
    (h : r2 ∈ mplusCls f r1) : ∃ cs, r1 = cs ++ r2 ∧ ∀ c ∈ cs, f c = true := by
  cases r1 with
  | nil => simp [mplusCls, mseq, mchar] at h
  | cons a rest =>
    simp only [mplusCls, mseq, mchar] at h
    by_cases hf : f a = true
    · rw [if_pos hf] at h
      simp only [List.flatMap_cons, List.flatMap_nil, List.append_nil] at h
      obtain ⟨cs, hcs, hall⟩ := mstarGo_split (h : r2 ∈ mstarCls f rest)
      refine ⟨a :: cs, by simp [hcs], ?_⟩
      intro c hc
      rcases List.mem_cons.mp hc with rfl | hc2
      · exact hf
      · exact hall c hc2
    · rw [if_neg hf] at h
      simp at h

theorem take_append_cancel {α : Type} (l r : List α) :
    (l ++ r).take ((l ++ r).length - r.length) = l := by
  rw [List.length_append, Nat.add_sub_cancel]
  exact List.take_left l r

theorem firstMatchR_capture {pre : Matcher} {f : Char → Bool}
    {post : List Char → Bool} {s cs rest : List Char}
    (h : firstMatchR pre (mplusCls f) post s = some (cs, rest)) :
    ∀ c ∈ cs, f c = true := by
  unfold firstMatchR at h
  obtain ⟨r1, _, h1⟩ := findSome_mem h
  obtain ⟨r2, hr2, h2⟩ := findSome_mem h1
  by_cases hp : post r2 = true
  · rw [if_pos hp] at h2
    obtain ⟨pre2, hsplit, hall⟩ := mplusCls_split hr2
    injection h2 with h3
    have hcs : cs = r1.take (r1.length - r2.length) := by
      have := congrArg Prod.fst h3
      simpa using this.symm
    rw [hcs, hsplit, take_append_cancel]
    exact hall
  · rw [if_neg hp] at h2
    cases h2

theorem firstMatch_capture {pre : Matcher} {f : Char → Bool}
    {post : List Char → Bool} {s cs : List Char}
    (h : firstMatch pre (mplusCls f) post s = some cs) :
    ∀ c ∈ cs, f c = true := by
  unfold firstMatch at h
  cases hm : firstMatchR pre (mplusCls f) post s with
  | none => rw [hm] at h; cases h
  | some p =>
    rw [hm] at h
    cases p with
    | mk a b =>
      injection h with h2
      subst h2
      exact firstMatchR_capture hm

theorem tryHere_capture {needB : Bool} {prev : Option Char} {pre : Matcher}
    {f : Char → Bool} {post : List Char → Bool} {s cs : List Char}
    (h : tryHere needB prev pre (mplusCls f) post s = some cs) :
    ∀ c ∈ cs, f c = true := by
  unfold tryHere at h
  by_cases hb : (needB && !boundaryOk prev s) = true
  · rw [if_pos hb] at h; cases h
  · rw [if_neg hb] at h
    exact firstMatch_capture h

theorem searchFrom_capture {needB : Bool} {pre : Matcher} {f : Char → Bool}
    {post : List Char → Bool} {g : List Char} :
    ∀ {prev : Option Char} {s : List Char},
    searchFrom needB pre (mplusCls f) post prev s = some g →
    ∀ c ∈ g, f c = true := by
  intro prev s
  induction s generalizing prev with
  | nil =>
    intro h
    rw [searchFrom] at h
    exact tryHere_capture h
  | cons a rest ih =>
    intro h
    rw [searchFrom] at h
    cases ht : tryHere needB prev pre (mplusCls f) post (a :: rest) with
    | some g2 =>
      rw [ht] at h
      injection h with h2
      subst h2
      exact tryHere_capture ht
    | none =>
      rw [ht] at h
      exact ih h

theorem reSearch_capture {needB : Bool} {pre : Matcher} {f : Char → Bool}
    {post : List Char → Bool} {text t : String}
    (h : reSearch needB pre (mplusCls f) post text = some t) :
    ∀ c ∈ t.data, f c = true := by
  unfold reSearch at h
  cases hs : searchFrom needB pre (mplusCls f) post none text.data with
  | none => rw [hs] at h; cases h
  | some g =>
    rw [hs] at h
    injection h with h2
    subst h2
    exact searchFrom_capture hs

theorem invTok_not_space {c : Char} (h : invTokChar c = true) :
    pyIsSpace c = false := by
  cases hsp : pyIsSpace c with
  | false => rfl
  | true =>
    have hc : ((((c = ' ' ∨ c = '\t') ∨ c = '\n') ∨ c = '\r') ∨ c = '\x0b') ∨ c = '\x0c' := by
      simpa [pyIsSpace] using hsp
    rcases hc with ((((rfl | rfl) | rfl) | rfl) | rfl) | rfl <;> simp [invTokChar, Char.isAlphanum, Char.isAlpha, Char.isUpper, Char.isLower, Char.isDigit] at h

theorem dropWhile_of_all_false {α : Type} {p : α → Bool} {l : List α}
    (h : ∀ c ∈ l, p c = false) : l.dropWhile p = l := by
  cases l with
  | nil => rfl
  | cons a as =>
    rw [List.dropWhile_cons, h a (List.mem_cons_self a as)]
    simp

theorem stripCh_of_no_space {cs : List Char}
    (h : ∀ c ∈ cs, pyIsSpace c = false) : stripCh cs = cs := by
  unfold stripCh
  rw [dropWhile_of_all_false h]
  rw [dropWhile_of_all_false (fun c hc => h c (List.mem_reverse.mp hc))]
  exact List.reverse_reverse cs

theorem pyStrip_of_invTok {t : String}
    (h : ∀ c ∈ t.data, invTokChar c = true) : pyStrip t = t := by
  unfold pyStrip
  rw [stripCh_of_no_space (fun c hc => invTok_not_space (h c hc))]

theorem strHasChar_at_false {t : String}
    (h : ∀ c ∈ t.data, invTokChar c = true) : strHasChar t '@' = false := by
  cases hm : strHasChar t '@' with
  | false => rfl
  | true =>
    have : '@' ∈ t.data := by
      simpa [strHasChar] using hm
    have := h _ this
    simp [invTokChar, Char.isAlphanum, Char.isAlpha, Char.isUpper, Char.isLower, Char.isDigit] at this

theorem gtLookup_mem {gt : GTRecord} {kv : String × PyVal}
    (hnd : (gt.map Prod.fst).Nodup) (h : kv ∈ gt) : gtLookup gt kv.1 = kv.2 := by
  induction gt with
  | nil => cases h
  | cons a rest ih =>
    rcases List.mem_cons.mp h with rfl | htail
    · unfold gtLookup
      rw [List.find?_cons_of_pos]
      simp
    · have hne : a.1 ≠ kv.1 := by
        intro he
        have : kv.1 ∈ rest.map Prod.fst := List.mem_map_of_mem Prod.fst htail
        rw [← he] at this
        exact (List.nodup_cons.mp hnd).1 this
      unfold gtLookup
      rw [List.find?_cons_of_neg]
      · exact ih (List.nodup_cons.mp hnd).2 htail
      · simp [hne]

theorem length_filter_split {α : Type} (p : α → Bool) (l : List α) :
    l.length = (l.filter p).length + (l.filter (fun a => !p a)).length := by
  induction l with
  | nil => rfl
  | cons a rest ih =>
    by_cases hp : p a = true <;>
      simp [List.filter_cons, hp, ih, Nat.add_assoc, Nat.add_comm, Nat.add_left_comm]

theorem filter_source_single {gt : GTRecord}
    (hnd : (gt.map Prod.fst).Nodup)
    (hs : "source_file" ∈ gt.map Prod.fst) :
    (gt.filter (fun kv => kv.1 == "source_file")).length = 1 := by
  induction gt with
  | nil => cases hs
  | cons a rest ih =>
    by_cases ha : a.1 = "source_file"
    · have hnone : rest.filter (fun kv => kv.1 == "source_file") = [] := by
        rw [List.filter_eq_nil_iff]
        intro kv hkv
        intro hbeq
        have : kv.1 ∈ rest.map Prod.fst := List.mem_map_of_mem Prod.fst hkv
        rw [eq_of_beq hbeq, ← ha] at this
        exact (List.nodup_cons.mp hnd).1 this
      simp [List.filter_cons, ha, hnone]
    · have hs2 : "source_file" ∈ rest.map Prod.fst := by
        rcases List.mem_cons.mp hs with he | h2
        · exact absurd he.symm ha
        · exact h2
      have := ih (List.nodup_cons.mp hnd).2 hs2
      simp [List.filter_cons, ha, this]

theorem gt_len_sub_one {gt : GTRecord}
    (hnd : (gt.map Prod.fst).Nodup)
    (hs : "source_file" ∈ gt.map Prod.fst) :
    gt.length - 1 = (gt.filter (fun kv => kv.1 != "source_file")).length := by
  have hsplit := length_filter_split (fun kv => kv.1 == "source_file") gt
  rw [filter_source_single hnd hs] at hsplit
  have : gt.length - 1 = (gt.filter (fun kv => !(kv.1 == "source_file"))).length := by
    omega
  simpa [bne] using this

theorem pfAdd_zero (x : PyFloat) : pfAdd x ⟨0, 1⟩ = x := by
  cases x with
  | mk n d => simp [pfAdd]

theorem foldl_pfAdd_skip_none :
    ∀ (docs : List RunDoc) (init : PyFloat),
    (runAccuracies docs).foldl pfAdd init =
      (runAccuracies (docs.filter (fun p => p.1.isSome))).foldl pfAdd init := by
  intro docs
  induction docs with
  | nil => intro init; rfl
  | cons d rest ih =>
    intro init
    cases d with
    | mk g r =>
      cases g with
      | none =>
        simp only [runAccuracies, List.map_cons, List.foldl_cons, List.filter_cons]
        have hz : accuracyFor none r = ⟨0, 1⟩ := rfl
        rw [hz, pfAdd_zero]
        simpa [runAccuracies] using ih init
      | some g0 =>
        simp only [runAccuracies, List.map_cons, List.foldl_cons, List.filter_cons]
        simpa [runAccuracies] using ih (pfAdd init (accuracyFor (some g0) r))

theorem pfSum_skip_none (docs : List RunDoc) :
    pfSum (runAccuracies docs) =
      pfSum (runAccuracies (docs.filter (fun p => p.1.isSome))) := by
  unfold pfSum
  exact foldl_pfAdd_skip_none docs ⟨0, 1⟩

theorem findSome_none {α β : Type} {l : List α} {f : α → Option β}
    (h : ∀ a ∈ l, f a = none) : l.findSome? f = none := by
  induction l with
  | nil => rfl
  | cons x xs ih =>
    rw [List.findSome?, h x (List.mem_cons_self x xs)]
    exact ih (fun a ha => h a (List.mem_cons_of_mem x ha))

/-! ## Claim theorems -/

/-- C5: for every text and source file, `extract_fields` in `llm` mode
returns the record with every field null except `doc_type = "invoice"` and
`source_file`: the body imports the name `llm_extract_invoice` from
`llm_extractor`, which does not define it, so the import raises and the
catch-all returns the null template — the external model is never invoked
through this path. -/
theorem c5_llm_mode_returns_null_template (text : String) (src : PyVal) :
    extractFields text src "llm" = Except.ok
      { doc_type := PyVal.pystr "invoice", invoice_number := PyVal.pynone,
        invoice_date := PyVal.pynone, vendor_name := PyVal.pynone,
        total_amount := PyVal.pynone, currency := PyVal.pynone,
        source_file := src } := rfl

/-- C9: the regex cascade is total: for every input text it returns a
complete record with `doc_type = "invoice"` and the given `source_file`,
every unmatched field degrading to null; on the empty text (a document whose
every page yielded empty OCR output) every extractable field is null.  (The
Lean embedding is a total function, so no input can raise.) -/
theorem c9_regex_cascade_total :
    (∀ (text : String) (src : PyVal),
      (extractFieldsRegex text src).doc_type = PyVal.pystr "invoice" ∧
      (extractFieldsRegex text src).source_file = src)
    ∧ (∀ (text : String) (src : PyVal), pickInvoiceNumber text = none →
        (extractFieldsRegex text src).invoice_number = PyVal.pynone)
    ∧ (∀ (text : String) (src : PyVal), pickDate text = none →
        (extractFieldsRegex text src).invoice_date = PyVal.pynone)
    ∧ (∀ (text : String) (src : PyVal), pickVendor text = none →
        (extractFieldsRegex text src).vendor_name = PyVal.pynone)
    ∧ (∀ (text : String) (src : PyVal), pickTotal text = none →
        (extractFieldsRegex text src).total_amount = PyVal.pynone)
    ∧ (∀ (text : String) (src : PyVal), pickCurrency text = none →
        (extractFieldsRegex text src).currency = PyVal.pynone)
    ∧ extractFieldsRegex "" (PyVal.pystr "empty.pdf") =
        nullRecord (PyVal.pystr "empty.pdf") := by
  refine ⟨fun text src => ⟨rfl, rfl⟩, ?_, ?_, ?_, ?_, ?_, by decide⟩ <;>
    intro text src h <;> simp [extractFieldsRegex, h, optStr, optNum]

/-- Witness for C9 at a concrete input: the empty text leaves
`invoice_number` null. -/
theorem c9_witness :
    (extractFieldsRegex "" (PyVal.pystr "w.pdf")).invoice_number = PyVal.pynone :=
  c9_regex_cascade_total.2.1 "" (PyVal.pystr "w.pdf") (by decide)

/-- C7: the `differences` mapping contains exactly the record fields whose
two values are not identical (None vs None counting as equal): membership is
characterised field by field, two identical records give an empty mapping,
and records differing only in `currency` ("GBP" vs "USD") give exactly
`["currency"]`. -/
theorem c7_differences_exact :
    (∀ (rx rl : PyRecord) (k : String),
      k ∈ differencesOf rx rl ↔
        (k ∈ recordKeys ∧ pyEq (rx.get k) (rl.get k) = false))
    ∧ (∀ r : PyRecord, differencesOf r r = [])
    ∧ differencesOf { nullRecord (PyVal.pystr "a.pdf") with currency := PyVal.pystr "GBP" }
        { nullRecord (PyVal.pystr "a.pdf") with currency := PyVal.pystr "USD" } =
        ["currency"] := by
  refine ⟨?_, ?_, by decide⟩
  · intro rx rl k
    simp [differencesOf, List.mem_filter, Bool.not_eq_true']
  · intro r
    simp [differencesOf, recordKeys, pyEq_refl]

/-- Counterexample to C1 as stated: on a text with no labelled total whose
only two-decimal token is `45.00`, the fallback returns `45.00` — a value
not strictly greater than 100 — instead of leaving the field null. -/
theorem c1_counterexample :
    (extractFieldsRegex "Fee 45.00" (PyVal.pystr "a.txt")).total_amount =
      PyVal.pynum ⟨4500, 100⟩ ∧
    pfLe ⟨4500, 100⟩ ⟨100, 1⟩ = true := by decide

/-- C1 amended: when no labelled total matches, the fallback keeps **every**
two-decimal numeric token (no plausibility threshold) and returns the
maximum; the field is null only when the text contains no such token at all;
with candidates 45.00, 230.50, 999.99 and no label the result is still
999.99. -/
theorem c1_total_fallback_amended :
    (∀ (text : String) (src : PyVal), searchTotalL text = none →
      (extractFieldsRegex text src).total_amount =
        optNum (numsMax ((findAllAmounts text).map parseAmount)))
    ∧ (∀ (text : String) (src : PyVal), searchTotalL text = none →
        findAllAmounts text = [] →
        (extractFieldsRegex text src).total_amount = PyVal.pynone)
    ∧ pickTotal "45.00 230.50 999.99" = some ⟨99999, 100⟩ := by
  refine ⟨?_, ?_, by decide⟩
  · intro text src h
    simp [extractFieldsRegex, pickTotal, h]
  · intro text src h h2
    simp [extractFieldsRegex, pickTotal, h, h2, numsMax, optNum]

/-- Witness for the amended C1 at a concrete input with no label: the
fallback equals the maximum of all parsed tokens. -/
theorem c1_amended_witness :
    (extractFieldsRegex "45.00 230.50 999.99" (PyVal.pystr "b.txt")).total_amount =
      optNum (numsMax ((findAllAmounts "45.00 230.50 999.99").map parseAmount)) :=
  c1_total_fallback_amended.1 "45.00 230.50 999.99" (PyVal.pystr "b.txt") (by decide)

/-- Counterexample to C2 as stated: a text with no legal-entity-suffix line
but a `Web:` line followed by a plain line leaves `vendor_name` null —
there is no `Web:` tier in the code. -/
theorem c2_counterexample :
    (extractFieldsRegex "Web:\nAcme Systems" (PyVal.pystr "w.txt")).vendor_name =
      PyVal.pynone ∧
    ¬ ((extractFieldsRegex "Web:\nAcme Systems" (PyVal.pystr "w.txt")).vendor_name =
        PyVal.pystr "Acme Systems") := by decide

/-- C2 amended: `vendor_name` is resolved by the legal-entity-suffix tier
alone — the first line whose stripped content matches the suffix pattern
supplies the stripped capture, and if no line matches the field is null.
There is no `Web:` tier and no capitalized-words fallback, and no
country/region stripping beyond the regex capture itself. -/
theorem c2_vendor_single_tier_amended :
    (∀ (text : String) (src : PyVal),
      (extractFieldsRegex text src).vendor_name =
        optStr ((pyLines text).findSome?
          (fun l => (vendorSearchLine (pyStrip l)).map pyStrip)))
    ∧ (∀ (text : String) (src : PyVal),
        (∀ l ∈ pyLines text, vendorSearchLine (pyStrip l) = none) →
        (extractFieldsRegex text src).vendor_name = PyVal.pynone) := by
  refine ⟨fun text src => rfl, ?_⟩
  intro text src h
  have hv : pickVendor text = none := by
    unfold pickVendor
    exact findSome_none (fun l hl => by rw [h l hl]; rfl)
  simp [extractFieldsRegex, hv, optStr]

/-- Witness for the amended C2: on the `Web:` text no line matches the
suffix pattern, so the vendor stays null. -/
theorem c2_amended_witness :
    (extractFieldsRegex "Web:\nAcme Systems" (PyVal.pystr "w2.txt")).vendor_name =
      PyVal.pynone :=
  c2_vendor_single_tier_amended.2 "Web:\nAcme Systems" (PyVal.pystr "w2.txt") (by decide)

/-- A two-document run used for claim C3: the first document has a
ground-truth record and full accuracy, the second has no ground truth. -/
def c3docs : List RunDoc :=
  [(some [("invoice_number", PyVal.pystr "I1"), ("source_file", PyVal.pystr "a.pdf")],
    { nullRecord (PyVal.pystr "a.pdf") with invoice_number := PyVal.pystr "I1" }),
   (none, nullRecord (PyVal.pystr "b.pdf"))]

/-- Counterexample to C3 as stated: with one fully correct document with
ground truth (accuracy 100) and one document without ground truth, the
code's summary is 50 while the mean over the documents that had ground
truth is 100 — the code divides by the count of **all** processed
documents. -/
theorem c3_counterexample :
    summaryAvgCode c3docs = ⟨5000, 100⟩ ∧
    summaryAvgSpecClaim c3docs = ⟨10000, 100⟩ ∧
    PyFloat.valEq (summaryAvgCode c3docs) (summaryAvgSpecClaim c3docs) = false := by
  decide

/-- C3 amended: the run-level summary per strategy is the sum of
per-document accuracies over the documents that had ground truth, divided by
the number of **all** processed documents (documents without ground truth
enter the denominator with accuracy zero), then rounded. -/
theorem c3_summary_mean_amended (docs : List RunDoc) (_h : docs ≠ []) :
    summaryAvgCode docs =
      pyRound2 ⟨(pfSum (runAccuracies (docs.filter (fun p => p.1.isSome)))).num,
        (pfSum (runAccuracies (docs.filter (fun p => p.1.isSome)))).den *
          docs.length⟩ := by
  unfold summaryAvgCode summaryAvg
  rw [pfSum_skip_none]
  simp [runAccuracies]

/-- Witness for the amended C3 at the concrete two-document run. -/
theorem c3_amended_witness :
    summaryAvgCode c3docs =
      pyRound2 ⟨(pfSum (runAccuracies (c3docs.filter (fun p => p.1.isSome)))).num,
        (pfSum (runAccuracies (c3docs.filter (fun p => p.1.isSome)))).den *
          c3docs.length⟩ :=
  c3_summary_mean_amended c3docs (by decide)

/-- One page's contribution in `pdf_reader.extract_text_from_pdf`: its
selectable text when truthy and nonblank, else its OCR text if OCR
succeeded, else nothing. -/
def pageKeep (p : Page) : Option String :=
  if p.text != "" && pyStrip p.text != "" then some p.text else p.ocr.toOption

/-- Counterexample to C4 as stated: in
`field_extractor.extract_text_from_pdf` — the variant `main.py` imports —
an OCR failure on one page is **not** caught: it propagates and aborts
extraction of the whole document (here a two-page document whose first page
has no selectable text and a failing OCR path). -/
theorem c4_counterexample :
    feExtractText [⟨"", Except.error "OCR failed"⟩, ⟨"Page two", Except.ok "unused"⟩] =
      Except.error "OCR failed" := rfl

/-- C4 amended: in `pdf_reader.extract_text_from_pdf` (the unimported
variant) a per-page OCR failure is caught and the page contributes nothing,
the surviving page texts being newline-joined in page order; in
`field_extractor.extract_text_from_pdf` (the variant `main.py` imports) an
OCR failure on a page with no selectable text propagates immediately. -/
theorem c4_page_failure_amended :
    (∀ pages : List Page,
      prExtractText pages = String.intercalate "\n" (pages.filterMap pageKeep))
    ∧ (∀ (acc : String) (p : Page) (rest : List Page) (e : String),
        pyStrip p.text = "" → p.ocr = Except.error e →
        feExtractGo acc (p :: rest) = Except.error e) := by
  constructor
  · intro pages
    unfold prExtractText
    congr 1
    induction pages with
    | nil => rfl
    | cons p rest ih =>
      by_cases hp : (p.text != "" && pyStrip p.text != "") = true
      · simp [prPageTexts, pageKeep, List.filterMap_cons, hp, ih]
      · cases ho : p.ocr with
        | ok t => simp [prPageTexts, pageKeep, List.filterMap_cons, Except.toOption, hp, ho, ih]
        | error e => simp [prPageTexts, pageKeep, List.filterMap_cons, Except.toOption, hp, ho, ih]
  · intro acc p rest e h h2
    rw [feExtractGo, if_neg (by simp [h]), h2]


/-- Witness for the amended C4: a page with empty text and a failing OCR
path makes the imported extractor error out. -/
theorem c4_amended_witness :
    feExtractGo "" [⟨"", Except.error "boom"⟩] = Except.error "boom" :=
  c4_page_failure_amended.2 "" ⟨"", Except.error "boom"⟩ [] "boom" (by decide) rfl

/-- C6: with a ground-truth record present, each strategy's accuracy is
(number of ground-truth fields other than `source_file` whose extracted
value equals the ground-truth value) over (number of ground-truth fields
other than `source_file`), times 100, rounded to two decimals; with no
ground-truth record both accuracies are zero without error. -/
theorem c6_accuracy_formula :
    (∀ (gt : GTRecord) (r : PyRecord),
      "source_file" ∈ gt.map Prod.fst → (gt.map Prod.fst).Nodup →
      accuracyFor (some gt) r =
        pyRound2 ⟨((gt.filter
            (fun kv => kv.1 != "source_file" && pyEq (r.get kv.1) kv.2)).length : ℤ) * 100,
          (gt.filter (fun kv => kv.1 != "source_file")).length⟩)
    ∧ (∀ r : PyRecord, accuracyFor none r = ⟨0, 1⟩) := by
  constructor
  · intro gt r hs hnd
    simp only [accuracyFor, correctCount]
    rw [gt_len_sub_one hnd hs]
    have hfil : gt.filter (fun kv => kv.1 != "source_file" && pyEq (r.get kv.1) (gtLookup gt kv.1)) =
        gt.filter (fun kv => kv.1 != "source_file" && pyEq (r.get kv.1) kv.2) := by
      apply List.filter_congr
      intro kv hkv
      rw [gtLookup_mem hnd hkv]
    rw [hfil]
  · intro r
    rfl

/-- Witness for C6 at the spec's example: ground truth with
`invoice_number`, `total_amount` (= 100.0) and `source_file`, extracted
record matching only `invoice_number`: accuracy is 50.0. -/
theorem c6_witness :
    accuracyFor
        (some [("invoice_number", PyVal.pystr "INV-1"),
          ("total_amount", PyVal.pynum ⟨10000, 100⟩),
          ("source_file", PyVal.pystr "a.pdf")])
        { nullRecord (PyVal.pystr "a.pdf") with invoice_number := PyVal.pystr "INV-1" } =
      pyRound2 ⟨(([("invoice_number", PyVal.pystr "INV-1"),
          ("total_amount", PyVal.pynum ⟨10000, 100⟩),
          ("source_file", PyVal.pystr "a.pdf")].filter
            (fun kv => kv.1 != "source_file" &&
              pyEq (({ nullRecord (PyVal.pystr "a.pdf") with
                invoice_number := PyVal.pystr "INV-1" } : PyRecord).get kv.1) kv.2)).length : ℤ) * 100,
        ([("invoice_number", PyVal.pystr "INV-1"),
          ("total_amount", PyVal.pynum ⟨10000, 100⟩),
          ("source_file", PyVal.pystr "a.pdf")].filter
            (fun kv => kv.1 != "source_file")).length⟩ ∧
    PyFloat.valEq
      (accuracyFor
        (some [("invoice_number", PyVal.pystr "INV-1"),
          ("total_amount", PyVal.pynum ⟨10000, 100⟩),
          ("source_file", PyVal.pystr "a.pdf")])
        { nullRecord (PyVal.pystr "a.pdf") with invoice_number := PyVal.pystr "INV-1" })
      ⟨50, 1⟩ = true :=
  ⟨c6_accuracy_formula.1 _ _ (by decide) (by decide), by decide⟩

/-- C10: every failure inside `extract_with_llm` — a service error on the
completion call, or a malformed/unparsable response — is caught at the
adapter boundary and yields the record with every field null except
`doc_type` and `source_file`; the adapter's return type carries no error, so
no failure propagates to the caller. -/
theorem c10_llm_adapter_catches :
    (∀ (w : LLMWorld) (text : String) (src : PyVal) (e : String),
      extractWithLLMTry w text src = Except.error e →
      extractWithLLM w text src = nullRecord src)
    ∧ (∀ (w : LLMWorld) (text : String) (src : PyVal) (e : String),
        w.response (promptOf text) = Except.error e →
        extractWithLLM w text src = nullRecord src)
    ∧ (∀ (w : LLMWorld) (text : String) (src : PyVal) (c e : String),
        w.response (promptOf text) = Except.ok c →
        w.parse c = Except.error e →
        extractWithLLM w text src = nullRecord src)
    ∧ (∀ (w : LLMWorld) (text : String) (src : PyVal),
        (extractWithLLM w text src).doc_type = PyVal.pystr "invoice" ∧
        (extractWithLLM w text src).source_file = src) := by
  refine ⟨?_, ?_, ?_, ?_⟩
  · intro w text src e h
    unfold extractWithLLM
    rw [h]
  · intro w text src e h
    simp [extractWithLLM, extractWithLLMTry, h]
  · intro w text src c e h h2
    simp [extractWithLLM, extractWithLLMTry, h, h2]
  · intro w text src
    cases ht : extractWithLLMTry w text src with
    | error e =>
      unfold extractWithLLM
      rw [ht]
      exact ⟨rfl, rfl⟩
    | ok r =>
      have hshape : r.doc_type = PyVal.pystr "invoice" ∧ r.source_file = src := by
        unfold extractWithLLMTry at ht
        cases hr : w.response (promptOf text) with
        | error e =>
          rw [hr] at ht
          exact Except.noConfusion ht
        | ok c =>
          rw [hr] at ht
          simp only [] at ht
          cases hp : w.parse c with
          | error e =>
            rw [hp] at ht
            exact Except.noConfusion ht
          | ok f =>
            rw [hp] at ht
            injection ht with h3
            rw [← h3]
            exact ⟨rfl, rfl⟩
      unfold extractWithLLM
      rw [ht]
      exact hshape

/-- Tokens returned by the first invoice-number search are made of
`[A-Za-z0-9\-\/]` characters only. -/
theorem searchInv1_token {text t : String} (h : searchInv1 text = some t) :
    ∀ c ∈ t.data, invTokChar c = true :=
  reSearch_capture
    (show reSearch false inv1Pre (mplusCls invTokChar) postTrue text = some t from h)

/-- Tokens returned by the second invoice-number search are made of
`[A-Za-z0-9\-\/]` characters only. -/
theorem searchInv2_token {text t : String} (h : searchInv2 text = some t) :
    ∀ c ∈ t.data, invTokChar c = true :=
  reSearch_capture
    (show reSearch false inv2Pre (mplusCls invTokChar) postTrue text = some t from h)

/-- Tokens returned by the third invoice-number search are made of
`[A-Za-z0-9\-\/]` characters only. -/
theorem searchInv3_token {text t : String} (h : searchInv3 text = some t) :
    ∀ c ∈ t.data, invTokChar c = true :=
  reSearch_capture
    (show reSearch false inv3Pre (mplusCls invTokChar) postTrue text = some t from h)

/-- C8: the invoice-number cascade tries the most specific label first
(`Invoice #`, then `Invoice No`, then `Inv/Bill No|#`); whichever tier
matches with a candidate not containing `@` supplies that token unchanged
(`strip` is the identity on it, since the token class has no whitespace);
if every tier fails the field stays null.  Moreover no candidate of any tier
can contain `@` at all — the capture class excludes it — so the `@`
rejection never discards a labelled match. -/
theorem c8_invoice_number_cascade (text t : String) :
    (searchInv1 text = some t → strHasChar t '@' = false →
      pickInvoiceNumber text = some t)
    ∧ (searchInv1 text = none → searchInv2 text = some t →
        strHasChar t '@' = false → pickInvoiceNumber text = some t)
    ∧ (searchInv1 text = none → searchInv2 text = none →
        searchInv3 text = some t → strHasChar t '@' = false →
        pickInvoiceNumber text = some t)
    ∧ (searchInv1 text = none → searchInv2 text = none →
        searchInv3 text = none → pickInvoiceNumber text = none)
    ∧ (searchInv1 text = some t → strHasChar t '@' = false)
    ∧ (searchInv2 text = some t → strHasChar t '@' = false)
    ∧ (searchInv3 text = some t → strHasChar t '@' = false) := by
  refine ⟨?_, ?_, ?_, ?_, ?_, ?_, ?_⟩
  · intro h hf
    simp only [pickInvoiceNumber, h, hf]
    simp [pyStrip_of_invTok (searchInv1_token h)]
  · intro h1 h hf
    simp only [pickInvoiceNumber, pickInv2, h1, h, hf]
    simp [pyStrip_of_invTok (searchInv2_token h)]
  · intro h1 h2 h hf
    simp only [pickInvoiceNumber, pickInv2, pickInv3, h1, h2, h, hf]
    simp [pyStrip_of_invTok (searchInv3_token h)]
  · intro h1 h2 h3
    simp [pickInvoiceNumber, pickInv2, pickInv3, h1, h2, h3]
  · intro h
    exact strHasChar_at_false (searchInv1_token h)
  · intro h
    exact strHasChar_at_false (searchInv2_token h)
  · intro h
    exact strHasChar_at_false (searchInv3_token h)

/-- Witness for C8 at a concrete labelled text: tier one fires and the token
comes back unchanged. -/
theorem c8_witness :
    pickInvoiceNumber "Invoice # INV-7 extra" = some "INV-7" :=
  (c8_invoice_number_cascade "Invoice # INV-7 extra" "INV-7").1 (by decide) (by decide)

/-- Witness for C10 with a concrete failing service: the adapter returns
the null record. -/
theorem c10_witness :
    extractWithLLM
        ⟨fun _ => Except.error "service down", fun _ => Except.error "bad json"⟩
        "some text" (PyVal.pystr "a.pdf") = nullRecord (PyVal.pystr "a.pdf") :=
  c10_llm_adapter_catches.2.1
    ⟨fun _ => Except.error "service down", fun _ => Except.error "bad json"⟩
    "some text" (PyVal.pystr "a.pdf") "service down" rfl
